import Mathlib

/-!
Verification development for the rconfig configuration-resolution engine.

The Go sources are embedded shallowly: the reflective struct walk becomes a
walk over an explicit field list, machine integers become Int/Nat with
explicit range checks, fallible code returns Except, and the external
collaborators (pflag flag set, process environment, YAML parser,
time.Parse/ParseDuration/ParseFloat from the standard library) are modelled
at their interface boundary as explicit parameters or oracles.
-/

namespace RConfig

/-! ## Go standard-library string and number primitives -/

/-- Latin-1 fragment of Go unicode.IsSpace, used by strings.TrimSpace:
space, tab, newline, vertical tab, form feed, carriage return, NEL, NBSP. -/
def isGoSpace (c : Char) : Bool :=
  c = ' ' || c = '\t' || c = '\n' || c = Char.ofNat 11 || c = Char.ofNat 12 ||
    c = '\r' || c = Char.ofNat 0x85 || c = Char.ofNat 0xA0

/-- Model of Go strings.TrimSpace: drop leading and trailing whitespace. -/
def trimSpace (s : String) : String :=
  String.mk (((s.data.dropWhile isGoSpace).reverse.dropWhile isGoSpace).reverse)

def decDigitsAux : List Char → Nat → Option Nat
  | [], acc => some acc
  | c :: cs, acc =>
    if c.isDigit then decDigitsAux cs (acc * 10 + (c.toNat - 48)) else none

/-- Value of a base-10 digit run: every character must be a decimal digit and
at least one must be present (Go strconv syntax for base 10, no underscores). -/
def decDigitsVal (cs : List Char) : Option Nat :=
  if cs.isEmpty then none else decDigitsAux cs 0

/-- Whether the first list is a prefix of the second. -/
def isPrefixOfB : List Char → List Char → Bool
  | [], _ => true
  | _ :: _, [] => false
  | p :: ps, c :: cs => c = p && isPrefixOfB ps cs

def goSplitAux (sep : List Char) : List Char → Nat → List Char → List String
  | [], _, acc => [String.mk acc.reverse]
  | _ :: cs, Nat.succ k, acc => goSplitAux sep cs k acc
  | c :: cs, 0, acc =>
    if isPrefixOfB sep (c :: cs) then
      String.mk acc.reverse :: goSplitAux sep cs (sep.length - 1) []
    else goSplitAux sep cs 0 (c :: acc)

/-- Model of Go strings.Split: split around each non-overlapping instance of
a non-empty separator, keeping empty pieces (so splitting the empty string
yields one empty piece); an empty separator explodes into characters. -/
def goSplit (s sep : String) : List String :=
  if sep.data.isEmpty then s.data.map (fun c => String.mk [c])
  else goSplitAux sep.data s.data 0 []

/-- Model of Go strings.ToLower, ASCII fragment (all keys exercised here are
ASCII). -/
def goToLower (s : String) : String :=
  String.mk (s.data.map Char.toLower)

/-- Model of Go strconv.ParseInt(s, 10, bitSize): optional sign, non-empty
digit run, two-complement range check.  Out-of-range inputs are treated as
failures; Go additionally returns a clamped value together with the error,
which the callers embedded here never use. -/
def goParseInt (s : String) (bitSize : Nat) : Option Int :=
  match s.data with
  | [] => none
  | c :: cs =>
    let sd : Bool × List Char :=
      if c = '-' then (true, cs)
      else if c = '+' then (false, cs)
      else (false, c :: cs)
    match decDigitsVal sd.2 with
    | none => none
    | some n =>
      let v : Int := if sd.1 then -(n : Int) else (n : Int)
      if -((2 : Int) ^ (bitSize - 1)) ≤ v ∧ v ≤ (2 : Int) ^ (bitSize - 1) - 1 then
        some v
      else none

/-- Model of Go strconv.ParseUint(s, 10, bitSize): non-empty digit run,
no sign, range check. -/
def goParseUint (s : String) (bitSize : Nat) : Option Nat :=
  match decDigitsVal s.data with
  | none => none
  | some n => if n ≤ 2 ^ bitSize - 1 then some n else none

/-- Modelled from the spec: parseIntForType is called by the traversal and by
setFieldValue but its definition is not among the provided sources.  Per the
spec the signed integer families parse as base-10 at the field's bit width
(the platform-width int taken as 64-bit). -/
def parseIntForType (value : String) (bits : Nat) : Option Int :=
  goParseInt value bits

/-- Modelled from the spec: parseUintForType, unsigned counterpart of
parseIntForType, likewise absent from the provided sources; base-10 parse at
the field's bit width. -/
def parseUintForType (value : String) (bits : Nat) : Option Nat :=
  goParseUint value bits

/-- Error text of Go strconv failures (syntax and range failures are
collapsed into the syntax message; the distinction is unobservable here). -/
def strconvErr (fn value : String) : String :=
  "strconv." ++ fn ++ ": parsing \"" ++ value ++ "\": invalid syntax"

/-- Error text of Go time.ParseDuration failures. -/
def durationErr (value : String) : String :=
  "time: invalid duration \"" ++ value ++ "\""

/-! ## Data model: field metadata, field types, field values -/

/-- The struct tags interpreted by rconfig.  Go's StructTag.Get returns the
empty string for an absent tag, so absence is represented by the empty
string exactly as in the source. -/
structure Tag where
  default : String := ""
  vardefault : String := ""
  env : String := ""
  flag : String := ""
  description : String := ""
  delimiter : String := ""
deriving DecidableEq

/-- A Go time.Time value as observable through this package: the zero value,
a value produced by time.Unix(sec, 0), or a value produced by time.Parse
(carried abstractly). -/
inductive GoTime where
  | zero : GoTime
  | unix : Int → GoTime
  | parsed : Int → GoTime
deriving DecidableEq

mutual
/-- The field types handled by execTags/setFieldValue: the two special
types (time.Duration, time.Time), the primitive kinds, the two slice kinds,
and nested structs.  Integer widths carry the strconv bit size. -/
inductive Typ where
  | duration : Typ
  | time : Typ
  | str : Typ
  | bool : Typ
  | int : Nat → Typ
  | uint : Nat → Typ
  | float : Bool → Typ
  | sliceInt : Typ
  | sliceStr : Typ
  | strukt : Fields → Typ

/-- An ordered list of struct fields: name, tags, type. -/
inductive Fields where
  | nil : Fields
  | cons : String → Tag → Typ → Fields → Fields
end

mutual
/-- A typed field value.  Floats and durations are carried abstractly (the
engine never computes with them, only stores parser output). -/
inductive Value where
  | str : String → Value
  | bool : Bool → Value
  | int : Int → Value
  | uint : Nat → Value
  | float : Int → Value
  | duration : Int → Value
  | time : GoTime → Value
  | sliceInt : List Int → Value
  | sliceStr : List String → Value
  | strukt : Values → Value

/-- The values of a struct's fields, in field order. -/
inductive Values where
  | nil : Values
  | cons : Value → Values → Values
end

/-- Whether a type is a nested (non-time) struct: the recursion test of
applyEnvAndDefaults (line 84), Kind() == reflect.Struct with an explicit
time.Time exception, so only Typ.strukt qualifies. -/
def Typ.isStructB : Typ → Bool
  | .strukt _ => true
  | _ => false

/-- Whether a type's reflect kind is Struct: the test of the inert check in
execTags (line 300), with no time.Time exception — time.Time is itself a Go
struct, so both nested structs and time.Time qualify (time.Duration's kind
is Int64, slices are Kind Slice). -/
def Typ.isStructKind : Typ → Bool
  | .strukt _ => true
  | .time => true
  | _ => false

mutual
/-- The Go zero value of a field type. -/
def Typ.zero : Typ → Value
  | .duration => .duration 0
  | .time => .time .zero
  | .str => .str ""
  | .bool => .bool false
  | .int _ => .int 0
  | .uint _ => .uint 0
  | .float _ => .float 0
  | .sliceInt => .sliceInt []
  | .sliceStr => .sliceStr []
  | .strukt fs => .strukt (Fields.zeroes fs)

/-- Zero values of a whole field list. -/
def Fields.zeroes : Fields → Values
  | .nil => .nil
  | .cons _ _ t rest => .cons (Typ.zero t) (Fields.zeroes rest)
end

/-! ## Ambient state and collaborators -/

/-- The default list of accepted textual timestamp formats
(timeParserFormats), expanded from the Go time-package constants. -/
def timeParserFormats : List String :=
  ["2006-01-02T15:04:05.999999999Z07:00", "2006-01-02T15:04:05Z07:00",
   "Mon, 02 Jan 2006 15:04:05 -0700", "Mon, 02 Jan 2006 15:04:05 MST",
   "02 Jan 06 15:04 -0700", "02 Jan 06 15:04 MST",
   "Monday, 02-Jan-06 15:04:05 MST", "Mon Jan 02 15:04:05 -0700 2006",
   "Mon Jan _2 15:04:05 MST 2006", "Mon Jan _2 15:04:05 2006",
   "2006-01-02 15:04:05.999999999 -0700 MST",
   "2006-01-02 15:04:05", "2006-01-02 15:04:05Z07:00",
   "01/02/2006 15:04:05", "01/02/2006 15:04:05Z07:00",
   "02.01.2006 15:04:05", "02.01.2006 15:04:05Z07:00"]

/-- Modelled from the spec: deriveEnvVarName (used when auto environment
naming is enabled) is not among the provided sources; per the spec it maps a
mixed-case identifier such as MyFieldName to MY_FIELD_NAME. -/
def deriveEnvVarNameAux : List Char → Bool → List Char
  | [], _ => []
  | c :: cs, first =>
    if c.isUpper ∧ ¬first then '_' :: c :: deriveEnvVarNameAux cs false
    else c.toUpper :: deriveEnvVarNameAux cs false

/-- Modelled from the spec: see deriveEnvVarNameAux. -/
def deriveEnvVarName (s : String) : String :=
  String.mk (deriveEnvVarNameAux s.data true)

/-- The ambient state a resolution call reads: the process environment
(LookupEnv, distinguishing unset from empty), the variable-defaults registry,
the autoEnv switch, the mutable timestamp-format list, and oracles for the
standard-library parsers whose internals are outside this package
(time.Parse per format, time.ParseDuration, strconv.ParseFloat). -/
structure Ctx where
  environ : String → Option String
  registry : String → Option String
  autoEnv : Bool := false
  timeFormats : List String := timeParserFormats
  timeParse : String → String → Option Int
  parseDuration : String → Option Int
  parseFloat : String → Option Int

/-- Model of AddTimeParserFormats: append custom formats. -/
def addTimeParserFormats (ctx : Ctx) (fs : List String) : Ctx :=
  { ctx with timeFormats := ctx.timeFormats ++ fs }

/-! ## Field Metadata Interpreter: varDefault and envDefault -/

/-- varDefault: if a vardefault name is present and the registry has it, the
registry value replaces the static default. -/
def varDefault (registry : String → Option String) (name deflt : String) : String :=
  if name ≠ "" then
    match registry name with
    | some v => v
    | none => deflt
  else deflt

/-- envDefault: determine the environment variable name (env tag, else the
derived name when autoEnv is on); if that variable is set — even to the
empty string — its value replaces the incoming default. -/
def envDefault (environ : String → Option String) (autoEnv : Bool)
    (fieldName envTag deflt : String) : String :=
  let env := if envTag = "" && autoEnv then deriveEnvVarName fieldName else envTag
  if env ≠ "" then
    match environ env with
    | some e => e
    | none => deflt
  else deflt

/-- The effective textual value of a field before flag binding:
static default, overridden by the registry, overridden by the environment. -/
def effectiveValue (ctx : Ctx) (fieldName : String) (tag : Tag) : String :=
  envDefault ctx.environ ctx.autoEnv fieldName tag.env
    (varDefault ctx.registry tag.vardefault tag.default)

/-! ## Per-kind coercion used by the single-pass traversal -/

/-- Inline int coercion of execTags: base-10 parse; on failure a non-empty
source value is a fatal error, an empty one silently becomes zero. -/
def execIntValue (value : String) (bits : Nat) : Except String Int :=
  match parseIntForType value bits with
  | some v => .ok v
  | none =>
    if value ≠ "" then .error ("parsing int: " ++ strconvErr "ParseInt" value)
    else .ok 0

/-- Inline uint coercion of execTags; same empty-tolerance policy. -/
def execUintValue (value : String) (bits : Nat) : Except String Nat :=
  match parseUintForType value bits with
  | some v => .ok v
  | none =>
    if value ≠ "" then .error ("parsing uint: " ++ strconvErr "ParseUint" value)
    else .ok 0

/-- Inline float coercion of execTags over the ParseFloat oracle; same
empty-tolerance policy. -/
def execFloatValue (pf : String → Option Int) (value : String) : Except String Int :=
  match pf value with
  | some v => .ok v
  | none =>
    if value ≠ "" then .error ("parsing float: " ++ strconvErr "ParseFloat" value)
    else .ok 0

/-- Inline duration coercion of execTags over the ParseDuration oracle; same
empty-tolerance policy. -/
def execDurationValue (pd : String → Option Int) (value : String) : Except String Int :=
  match pd value with
  | some v => .ok v
  | none =>
    if value ≠ "" then .error ("parsing time.Duration: " ++ durationErr value)
    else .ok 0

/-- Element-wise parse of an int-slice default: each comma-separated piece is
whitespace-trimmed and parsed base-10 at 64 bits; any failure is fatal
(there is no empty-tolerance in this branch). -/
def parseIntSlice : List String → Except String (List Int)
  | [] => .ok []
  | v :: rest =>
    match goParseInt (trimSpace v) 64 with
    | none => .error ("parsing int: " ++ strconvErr "ParseInt" (trimSpace v))
    | some it =>
      match parseIntSlice rest with
      | .error e => .error e
      | .ok xs => .ok (it :: xs)

/-- First successful format of the ordered timestamp-format walk. -/
def firstTimeParse (tp : String → String → Option Int) :
    List String → String → Option Int
  | [], _ => none
  | f :: rest, v =>
    match tp f v with
    | some t => some t
    | none => firstTimeParse tp rest v

/-- The deferred time.Time coercion action registered by execTags: empty text
is trivially fine, then a base-10 Unix epoch attempt, then the format walk,
else an error naming the value. -/
def timeAfterFunc (ctx : Ctx) (sVar : String) (old : Value) : Except String Value :=
  if sVar = "" then .ok old
  else
    match goParseInt sVar 64 with
    | some ts => .ok (.time (.unix ts))
    | none =>
      match firstTimeParse ctx.timeParse ctx.timeFormats sVar with
      | some t => .ok (.time (.parsed t))
      | none => .error ("value \"" ++ sVar ++ "\" did not match expected time formats")

/-! ## Single-pass resolution: execTags, flag binding, deferred actions -/

mutual
/-- What the registration walk decided for one field: skipped (inert), a
direct write (no flag), a registered flag binding carrying its typed default,
a deferred time.Time coercion (with the optionally registered string flag
and the captured textual default), or a nested struct's decisions. -/
inductive FieldRes where
  | skipped : FieldRes
  | direct : Value → FieldRes
  | flagged : String → Value → FieldRes
  | timeDeferred : Option String → String → FieldRes
  | nested : ResList → FieldRes

/-- Registration decisions for a field list, in field order. -/
inductive ResList where
  | nil : ResList
  | cons : FieldRes → ResList → ResList
end

/-- The inert-field test of execTags (line 300): none of the default/env/flag
tags is present and the field's reflect kind is not Struct.  Note the
vardefault tag is not consulted, and time.Time — whose reflect kind is
Struct — never passes this test. -/
def isInert (tag : Tag) (t : Typ) : Bool :=
  tag.default == "" && tag.env == "" && tag.flag == "" && !t.isStructKind

/-- Register a flag binding when the flag tag is present, otherwise write the
value directly, as every non-special leaf branch of execTags does. -/
def regOrDirect (tag : Tag) (parts : List String) (v : Value) : FieldRes :=
  if tag.flag ≠ "" then .flagged (parts.headD "") v else .direct v

mutual
/-- One iteration of the execTags field loop (lines 296-488): skip inert
fields, compute the effective textual value, then dispatch on the type. -/
def execField (ctx : Ctx) (fieldName : String) (tag : Tag) (t : Typ) :
    Except String FieldRes :=
  if isInert tag t then .ok .skipped
  else
  let value := effectiveValue ctx fieldName tag
  let parts := goSplit tag.flag ","
  match t with
  | .duration =>
    match execDurationValue ctx.parseDuration value with
    | .error e => .error e
    | .ok v => .ok (regOrDirect tag parts (.duration v))
  | .time =>
    .ok (.timeDeferred (if tag.flag ≠ "" then some (parts.headD "") else none) value)
  | .str => .ok (regOrDirect tag parts (.str value))
  | .bool => .ok (regOrDirect tag parts (.bool (value = "true")))
  | .int bits =>
    match execIntValue value bits with
    | .error e => .error e
    | .ok v => .ok (regOrDirect tag parts (.int v))
  | .uint bits =>
    match execUintValue value bits with
    | .error e => .error e
    | .ok v => .ok (regOrDirect tag parts (.uint v))
  | .float _ =>
    match execFloatValue ctx.parseFloat value with
    | .error e => .error e
    | .ok v => .ok (regOrDirect tag parts (.float v))
  | .sliceInt =>
    match parseIntSlice (goSplit value ",") with
    | .error e => .error e
    | .ok xs => .ok (.flagged (parts.headD "") (.sliceInt xs))
  | .sliceStr =>
    let del := if tag.delimiter.data.isEmpty then "," else tag.delimiter
    let xs := if value ≠ "" then goSplit value del else []
    .ok (.flagged (parts.headD "") (.sliceStr xs))
  | .strukt fs =>
    match execFields ctx fs with
    | .error e => .error e
    | .ok rs => .ok (.nested rs)

/-- The execTags loop over a whole field list; the first error aborts. -/
def execFields (ctx : Ctx) (fs : Fields) : Except String ResList :=
  match fs with
  | .nil => .ok .nil
  | .cons n tag t rest =>
    match execField ctx n tag t with
    | .error e => .error e
    | .ok r =>
      match execFields ctx rest with
      | .error e => .error e
      | .ok rs => .ok (.cons r rs)
end

/-- The string a registered string flag carries after external parsing:
the user-supplied value when present, otherwise the registered default. -/
def suppliedStr (supplied : String → Option Value) (n deflt : String) : String :=
  match supplied n with
  | some (.str s) => s
  | _ => deflt

mutual
/-- The value a field holds once flag parsing and the deferred actions have
run.  supplied is the flag collaborator's outcome: the typed value of each
flag the caller explicitly passed.  A skipped field keeps its old value; a
flagged field holds the supplied value or its registered default; a deferred
time field coerces the final text of its backing string. -/
def resolveField (ctx : Ctx) (supplied : String → Option Value)
    (r : FieldRes) (old : Value) : Except String Value :=
  match r with
  | .skipped => .ok old
  | .direct v => .ok v
  | .flagged n dv => .ok ((supplied n).getD dv)
  | .timeDeferred fn text =>
    let sVar :=
      match fn with
      | some n => suppliedStr supplied n text
      | none => text
    timeAfterFunc ctx sVar old
  | .nested rs =>
    match old with
    | .strukt olds =>
      match resolveFields ctx supplied rs olds with
      | .error e => .error e
      | .ok vs => .ok (.strukt vs)
    | _ => .error "shape mismatch"

/-- Post-parse resolution of a whole field list against its prior values. -/
def resolveFields (ctx : Ctx) (supplied : String → Option Value)
    (rs : ResList) (olds : Values) : Except String Values :=
  match rs, olds with
  | .nil, _ => .ok .nil
  | .cons r rest, .cons o os =>
    match resolveField ctx supplied r o with
    | .error e => .error e
    | .ok v =>
      match resolveFields ctx supplied rest os with
      | .error e => .error e
      | .ok vs => .ok (.cons v vs)
  | .cons _ _, .nil => .error "shape mismatch"
end

/-- Model of parse/Parse: run the registration walk (execTags), then apply
the flag collaborator's parsed values and run the deferred coercion actions
in registration order. -/
def rconfigParse (ctx : Ctx) (supplied : String → Option Value)
    (fs : Fields) (init : Values) : Except String Values :=
  match execFields ctx fs with
  | .error e => .error e
  | .ok rs => resolveFields ctx supplied rs init

/-! ## Two-phase mode: setFieldValue and applyEnvAndDefaults -/

/-- setFieldValue (lines 124-182): the direct field write used by
applyEnvAndDefaults when no registered flag backs the field.  Unlike the
single-pass branches there is no empty-tolerance here: every parse failure,
including on the empty string, is returned as an error.  Kinds without a
case in the Go switch (slices, structs) fall through and leave the field
unchanged. -/
def setFieldValue (ctx : Ctx) (t : Typ) (value : String) (old : Value) :
    Except String Value :=
  match t with
  | .duration =>
    match ctx.parseDuration value with
    | some v => .ok (.duration v)
    | none => .error (durationErr value)
  | .time =>
    match goParseInt value 64 with
    | some ts => .ok (.time (.unix ts))
    | none =>
      match firstTimeParse ctx.timeParse ctx.timeFormats value with
      | some t => .ok (.time (.parsed t))
      | none => .error ("unable to parse time: " ++ value)
  | .str => .ok (.str value)
  | .bool => .ok (.bool (value = "true"))
  | .int bits =>
    match parseIntForType value bits with
    | some v => .ok (.int v)
    | none => .error (strconvErr "ParseInt" value)
  | .uint bits =>
    match parseUintForType value bits with
    | some v => .ok (.uint v)
    | none => .error (strconvErr "ParseUint" value)
  | .float _ =>
    match ctx.parseFloat value with
    | some v => .ok (.float v)
    | none => .error (strconvErr "ParseFloat" value)
  | .sliceInt => .ok old
  | .sliceStr => .ok old
  | .strukt _ => .ok old

/-- One flag of the externally owned flag set: its live typed value, its
changed bit, and its value-setting mechanism (pflag's flag.Value.Set,
which parses text per the flag's own type and may reject it). -/
structure PFlag where
  value : Value
  changed : Bool
  setter : String → Except String Value

/-- The externally owned flag set, keyed by long flag name. -/
def FlagMap : Type := List (String × PFlag)

/-- Lookup in the external flag set (pflag FlagSet.Lookup). -/
def lookupFlag : FlagMap → String → Option PFlag
  | [], _ => none
  | (n, f) :: rest, k => if n = k then some f else lookupFlag rest k

/-- Replace the named flag's state. -/
def updateFlag : FlagMap → String → PFlag → FlagMap
  | [], _, _ => []
  | (n, f) :: rest, k, nf =>
    if n = k then (k, nf) :: rest else (n, f) :: updateFlag rest k nf

/-- setFieldValue wrapped with the field-naming error context that
applyEnvAndDefaults adds. -/
def setFieldWrapped (ctx : Ctx) (fieldName : String) (t : Typ) (value : String)
    (old : Value) (fm : FlagMap) : Except String (Value × FlagMap) :=
  match setFieldValue ctx t value old with
  | .error e => .error ("setting field " ++ fieldName ++ ": " ++ e)
  | .ok v => .ok (v, fm)

/-- The leaf-field body of the applyEnvAndDefaults loop (lines 91-118):
recompute the effective value; a field whose flag exists with its changed
bit set is skipped entirely; an existing unchanged flag gets its live value
overwritten through its own Set mechanism; otherwise the field is written
directly via setFieldValue. -/
def applyLeaf (ctx : Ctx) (fm : FlagMap) (fieldName : String) (tag : Tag)
    (t : Typ) (old : Value) : Except String (Value × FlagMap) :=
  let value := effectiveValue ctx fieldName tag
  if tag.flag ≠ "" then
    let fname := (goSplit tag.flag ",").headD ""
    match lookupFlag fm fname with
    | some fl =>
      if fl.changed then .ok (old, fm)
      else
        match fl.setter value with
        | .error e => .error ("setting flag " ++ fname ++ ": " ++ e)
        | .ok v => .ok (old, updateFlag fm fname { fl with value := v })
    | none => setFieldWrapped ctx fieldName t value old fm
  else setFieldWrapped ctx fieldName t value old fm

mutual
/-- One iteration of applyEnvAndDefaults: nested (non-time) structs recurse,
every other field runs the leaf body.  There is no inert-field test in this
phase. -/
def applyField (ctx : Ctx) (fm : FlagMap) (fieldName : String) (tag : Tag)
    (t : Typ) (old : Value) : Except String (Value × FlagMap) :=
  match t with
  | .strukt fs =>
    match old with
    | .strukt olds =>
      match applyFields ctx fm fs olds with
      | .error e => .error e
      | .ok (vs, fm2) => .ok (.strukt vs, fm2)
    | _ => .error "shape mismatch"
  | t => applyLeaf ctx fm fieldName tag t old

/-- applyEnvAndDefaults over a whole field list. -/
def applyFields (ctx : Ctx) (fm : FlagMap) (fs : Fields) (olds : Values) :
    Except String (Values × FlagMap) :=
  match fs, olds with
  | .nil, _ => .ok (.nil, fm)
  | .cons n tag t rest, .cons o os =>
    match applyField ctx fm n tag t o with
    | .error e => .error e
    | .ok (v, fm2) =>
      match applyFields ctx fm2 rest os with
      | .error e => .error e
      | .ok (vs, fm3) => .ok (.cons v vs, fm3)
  | .cons _ _ _ _, .nil => .error "shape mismatch"
end

/-! ## Key Flattener and the YAML default-set provider -/

/-- A YAML scalar as this package observes it: fmt.Sprintf("%v") output is
all that matters. -/
inductive Scalar where
  | str : String → Scalar
  | int : Int → Scalar
  | bool : Bool → Scalar
deriving DecidableEq

/-- Go fmt.Sprintf("%v", scalar). -/
def Scalar.sprintf : Scalar → String
  | .str s => s
  | .int n => toString n
  | .bool b => if b then "true" else "false"

mutual
/-- A parsed YAML value: a leaf scalar, a string-keyed mapping, or — for
compatibility with looser document encodings — a mapping keyed by non-string
scalars. -/
inductive YVal where
  | scalar : Scalar → YVal
  | smap : YEntries → YVal
  | imap : YIEntries → YVal

/-- Entries of a string-keyed mapping, in document order. -/
inductive YEntries where
  | nil : YEntries
  | cons : String → YVal → YEntries → YEntries

/-- Entries of a scalar-keyed mapping, in document order. -/
inductive YIEntries where
  | nil : YIEntries
  | cons : Scalar → YVal → YIEntries → YIEntries
end

/-- Options for the YAML provider. -/
structure YAMLOptions where
  keyToLower : Bool := false

/-- Functional option for the YAML provider. -/
def YAMLOption : Type := YAMLOptions → YAMLOptions

/-- WithKeyToLower: lower-case every key segment. -/
def WithKeyToLower : YAMLOption := fun o => { o with keyToLower := true }

/-- Fold a functional-option list over the zero options value. -/
def applyOptions (opts : List YAMLOption) : YAMLOptions :=
  opts.foldl (fun acc f => f acc) {}

mutual
/-- Flatten one mapping value under its already-joined key.  Scalars are
emitted; mappings recurse with the key as the new prefix.  The Go code
materialises a string-keyed copy of a scalar-keyed mapping via Sprintf
before recursing; here the key conversion happens in place, which emits the
same key/value pairs.  The Go accumulator is a map written with
out[key] = v; this list agrees with it wherever joined keys do not
collide. -/
def flattenYAMLVal (key : String) (v : YVal) (opts : YAMLOptions) :
    List (String × String) :=
  match v with
  | .scalar s => [(key, s.sprintf)]
  | .smap es => flattenYAMLMap key es opts
  | .imap es => flattenYAMLMapI key es opts

/-- flattenYAMLMap: lower-case the segment when requested, join it onto a
non-empty prefix with a dot, and recurse. -/
def flattenYAMLMap (pfx : String) (es : YEntries) (opts : YAMLOptions) :
    List (String × String) :=
  match es with
  | .nil => []
  | .cons k v rest =>
    let key := if opts.keyToLower then goToLower k else k
    let key := if pfx ≠ "" then pfx ++ "." ++ key else key
    flattenYAMLVal key v opts ++ flattenYAMLMap pfx rest opts

/-- The scalar-keyed branch of flattenYAMLMap (keys stringified first). -/
def flattenYAMLMapI (pfx : String) (es : YIEntries) (opts : YAMLOptions) :
    List (String × String) :=
  match es with
  | .nil => []
  | .cons k v rest =>
    let key := if opts.keyToLower then goToLower (Scalar.sprintf k) else Scalar.sprintf k
    let key := if pfx ≠ "" then pfx ++ "." ++ key else key
    flattenYAMLVal key v opts ++ flattenYAMLMapI pfx rest opts
end

/-- Lookup in a flattened key/value list. -/
def lookupFlat (l : List (String × String)) (k : String) : Option String :=
  (l.find? (fun p => p.1 == k)).map (fun p => p.2)

/-- Modelled from the spec (§6 document collaborator): the outcome of
handing raw bytes to yaml.Unmarshal with a string-keyed map target —
either malformed bytes, a mapping root, or a non-mapping root such as a bare
sequence, which the collaborator must reject as an error rather than coerce. -/
inductive YamlDoc where
  | malformed : String → YamlDoc
  | mapRoot : YEntries → YamlDoc
  | seqRoot : List Scalar → YamlDoc

/-- Modelled from the spec: yaml.Unmarshal into map[string]interface form. -/
def yamlUnmarshalMap : YamlDoc → Except String YEntries
  | .malformed e => .error e
  | .mapRoot es => .ok es
  | .seqRoot _ => .error "cannot unmarshal sequence into map"

/-- VarDefaultsFromYAML: apply the options, unmarshal (propagating a wrapped
parse error), flatten from the empty prefix. -/
def VarDefaultsFromYAML (inDoc : YamlDoc) (opts : List YAMLOption) :
    Except String (List (String × String)) :=
  let options := applyOptions opts
  match yamlUnmarshalMap inDoc with
  | .error e => .error ("parsing yaml: " ++ e)
  | .ok raw => .ok (flattenYAMLMap "" raw options)

/-- VarDefaultsFromYAMLFile: a file-read failure is wrapped and propagated;
otherwise the read document goes through VarDefaultsFromYAML. -/
def VarDefaultsFromYAMLFile (readResult : Except String YamlDoc)
    (opts : List YAMLOption) : Except String (List (String × String)) :=
  match readResult with
  | .error e => .error ("reading file: " ++ e)
  | .ok data => VarDefaultsFromYAML data opts

/-! ## Spec-side description of flattening (for the refinement claim) -/

/-- Dot-join of path segments, following the spec's words. -/
def dotJoin : List String → String
  | [] => ""
  | [k] => k
  | k :: rest => k ++ "." ++ dotJoin rest

mutual
/-- All leaf paths of a YAML value, following the spec's words: the list of
(path-segments, stringified scalar) pairs, in document order, scalar-keyed
mappings contributing their stringified keys. -/
def specPathsVal : YVal → List (List String × String)
  | .scalar s => [([], s.sprintf)]
  | .smap es => specPathsMap es
  | .imap es => specPathsIMap es

/-- Leaf paths below a string-keyed mapping. -/
def specPathsMap : YEntries → List (List String × String)
  | .nil => []
  | .cons k v rest =>
    (specPathsVal v).map (fun p => (k :: p.1, p.2)) ++ specPathsMap rest

/-- Leaf paths below a scalar-keyed mapping. -/
def specPathsIMap : YIEntries → List (List String × String)
  | .nil => []
  | .cons k v rest =>
    (specPathsVal v).map (fun p => (Scalar.sprintf k :: p.1, p.2)) ++ specPathsIMap rest
end

/-- Optional lower-casing of one key segment. -/
def lowKey (lower : Bool) (k : String) : String :=
  if lower then goToLower k else k

/-- Follows the spec's words (§4.5, P6): flattening a document is dot-joining
every leaf path, each segment lower-cased first when the option is on. -/
def specFlatten (lower : Bool) (es : YEntries) : List (String × String) :=
  (specPathsMap es).map (fun p => (dotJoin (p.1.map (lowKey lower)), p.2))

/-- Whether every top-level key of a document, after optional lower-casing,
is non-empty (the well-formedness condition under which flattening and the
spec's dot-join description coincide). -/
def rootKeysOK (lower : Bool) : YEntries → Bool
  | .nil => true
  | .cons k _ rest => lowKey lower k ≠ "" && rootKeysOK lower rest

/-! ## Concrete instances used by witnesses -/

/-- A context with the given environment and registry in which no
standard-library parser oracle ever succeeds. -/
def ctxOf (environ registry : String → Option String) : Ctx :=
  { environ := environ, registry := registry,
    timeParse := fun _ _ => none, parseDuration := fun _ => none,
    parseFloat := fun _ => none }

/-- A one-entry string map. -/
def mapOne (k v : String) : String → Option String :=
  fun n => if n = k then some v else none

/-- A one-entry map of user-supplied flag values. -/
def supOne (k : String) (v : Value) : String → Option Value :=
  fun n => if n = k then some v else none

/-- The P6 example document: config → rabbitmq → port → 1234. -/
def docP6 : YEntries :=
  .cons "config"
    (.smap (.cons "rabbitmq" (.smap (.cons "port" (.scalar (.int 1234)) .nil)) .nil))
    .nil

/-- A mixed-case document for the lower-casing instance. -/
def docLC : YEntries :=
  .cons "Config"
    (.smap (.cons "RabbitMQ"
      (.imap (.cons (.int 7) (.scalar (.str "Test-Host")) .nil)) .nil))
    .nil

/-- A context whose time-parse oracle accepts exactly the simplified ISO
format on one concrete input, as Go time.Parse would. -/
def ctxTime : Ctx :=
  { environ := fun _ => none, registry := fun _ => none,
    timeParse := fun f s =>
      if f = "2006-01-02 15:04:05" && s = "2023-01-02 15:04:05" then
        some 1672671845
      else none,
    parseDuration := fun _ => none, parseFloat := fun _ => none }

/-! ## Shared lemmas -/

/-- The inert test unfolded to a propositional description. -/
theorem isInert_iff (tag : Tag) (t : Typ) :
    isInert tag t = true
      ↔ (tag.default = "" ∧ tag.env = "" ∧ tag.flag = "" ∧ t.isStructKind = false) := by
  simp [isInert, Bool.and_eq_true, Bool.not_eq_true', and_assoc]

/-! ## Claims -/

/-- C9: document-conversion error policy.  VarDefaultsFromYAML propagates an
explicit wrapped error — never a silently empty map — both for malformed
input bytes and for a non-mapping (bare sequence) root, and
VarDefaultsFromYAMLFile propagates an explicit wrapped error when the file
cannot be read. -/
theorem c9_document_error_policy (e : String) (items : List Scalar)
    (opts : List YAMLOption) (l : List (String × String)) :
    (VarDefaultsFromYAML (.malformed e) opts = .error ("parsing yaml: " ++ e))
    ∧ (VarDefaultsFromYAML (.seqRoot items) opts
        = .error "parsing yaml: cannot unmarshal sequence into map")
    ∧ (VarDefaultsFromYAML (.malformed e) opts ≠ .ok l)
    ∧ (VarDefaultsFromYAML (.seqRoot items) opts ≠ .ok l)
    ∧ (VarDefaultsFromYAMLFile (.error e) opts = .error ("reading file: " ++ e))
    ∧ (VarDefaultsFromYAMLFile (.error e) opts ≠ .ok l) := by
  refine ⟨rfl, rfl, ?_, ?_, rfl, ?_⟩ <;> simp [VarDefaultsFromYAML, VarDefaultsFromYAMLFile, yamlUnmarshalMap]

/-- C6: empty-vs-unset environment distinction.  For a field with a
non-empty env tag, a set environment variable — even one set to the empty
string — overrides the registry and static-default tiers, while an unset
variable leaves the lower-tier value unchanged. -/
theorem c6_env_empty_vs_unset (registry : String → Option String)
    (autoEnv : Bool) (fieldName ename kname d e : String) (he : ename ≠ "") :
    (∀ environ : String → Option String, environ ename = some e →
      envDefault environ autoEnv fieldName ename (varDefault registry kname d) = e)
    ∧ (∀ environ : String → Option String, environ ename = some "" → d ≠ "" →
      envDefault environ autoEnv fieldName ename (varDefault registry kname d) = "")
    ∧ (∀ environ : String → Option String, environ ename = none →
      envDefault environ autoEnv fieldName ename (varDefault registry kname d)
        = varDefault registry kname d) := by
  refine ⟨?_, ?_, ?_⟩ <;> intro environ hset <;>
    simp [envDefault, he, hset]

/-- C6 witness: concrete instance with the environment variable set to the
empty string overriding a non-empty static default, and the unset case. -/
theorem c6_env_empty_vs_unset_witness :
    envDefault (mapOne "E" "") false "F" "E" (varDefault (fun _ => none) "" "defv") = ""
    ∧ envDefault (fun _ => none) false "F" "E" (varDefault (fun _ => none) "" "defv") = "defv" := by
  have h := c6_env_empty_vs_unset (fun _ => none) false "F" "E" "" "defv" "" (by decide)
  exact ⟨h.2.1 (mapOne "E" "") rfl (by decide), h.2.2 (fun _ => none) rfl⟩

/-- C4: two-phase non-override.  In applyEnvAndDefaults, a (non-struct)
field whose flag exists in the external flag set with its changed bit set is
skipped entirely: the field value and the whole flag set come back
unchanged, so the user-supplied flag value is retained. -/
theorem c4_two_phase_non_override (ctx : Ctx) (fm : FlagMap)
    (fieldName : String) (tag : Tag) (t : Typ) (old : Value) (fl : PFlag)
    (hflag : tag.flag ≠ "") (hstruct : t.isStructB = false)
    (hlook : lookupFlag fm ((goSplit tag.flag ",").headD "") = some fl)
    (hch : fl.changed = true) :
    applyFields ctx fm (.cons fieldName tag t .nil) (.cons old .nil)
      = .ok (.cons old .nil, fm) := by
  cases t <;> simp_all [applyFields, applyField, applyLeaf, Typ.isStructB]

/-- C4 witness: a concrete changed flag wins over a populated default and
environment tier. -/
theorem c4_two_phase_non_override_witness :
    applyFields (ctxOf (mapOne "E" "envv") (fun _ => none))
      [("listen", { value := .str "user", changed := true, setter := fun s => .ok (.str s) })]
      (.cons "F" { default := "defv", env := "E", flag := "listen,l" } .str .nil)
      (.cons (.str "user") .nil)
      = .ok (.cons (.str "user") .nil,
          [("listen", { value := .str "user", changed := true, setter := fun s => .ok (.str s) })]) := by
  exact c4_two_phase_non_override _ _ "F" _ .str (.str "user")
    { value := .str "user", changed := true, setter := fun s => .ok (.str s) }
    (by decide) rfl rfl rfl

/-- C5 counterexample: a field whose only metadata attribute is vardefault
is, contrary to the claim, inert: with the registry containing its key bound
to "42", single-pass resolution leaves the int64 field at its prior zero
value instead of resolving the registry value. -/
theorem c5_counterexample :
    rconfigParse (ctxOf (fun _ => none) (mapOne "k" "42")) (fun _ => none)
      (.cons "F" { vardefault := "k" } (.int 64) .nil) (.cons (.int 0) .nil)
      = .ok (.cons (.int 0) .nil)
    ∧ rconfigParse (ctxOf (fun _ => none) (mapOne "k" "42")) (fun _ => none)
      (.cons "F" { vardefault := "k" } (.int 64) .nil) (.cons (.int 0) .nil)
      ≠ .ok (.cons (.int 42) .nil) := by
  refine ⟨rfl, ?_⟩
  intro h
  rw [show rconfigParse (ctxOf (fun _ => none) (mapOne "k" "42")) (fun _ => none)
      (.cons "F" { vardefault := "k" } (.int 64) .nil) (.cons (.int 0) .nil)
      = .ok (.cons (.int 0) .nil) from rfl] at h
  simp at h

/-- C5 amended: in single-pass resolution a field whose reflect kind is not
Struct is skipped iff its default, env and flag attributes are all absent —
the vardefault attribute is not consulted, so a vardefault-only field of
such a kind is inert (a skipped field keeps its prior value).  A time.Time
field, whose reflect kind is Struct, is never skipped, and a vardefault-only
time.Time field does receive the matching registry value through its
deferred coercion. -/
theorem c5_inert_rule_amended (ctx : Ctx) (fieldName : String) (tag : Tag)
    (t : Typ) (old : Value) (supplied : String → Option Value) :
    (t.isStructKind = false →
      (execField ctx fieldName tag t = .ok .skipped
        ↔ (tag.default = "" ∧ tag.env = "" ∧ tag.flag = "")))
    ∧ resolveField ctx supplied .skipped old = .ok old
    ∧ execField ctx fieldName tag .time ≠ .ok .skipped
    ∧ (∀ kname ts n, kname ≠ "" → ctx.autoEnv = false →
        ctx.registry kname = some ts → goParseInt ts 64 = some n →
        rconfigParse ctx supplied
          (.cons fieldName { vardefault := kname } .time .nil) (.cons old .nil)
          = .ok (.cons (.time (.unix n)) .nil)) := by
  have htime : ∀ tg : Tag, isInert tg .time = false := by
    intro tg; simp [isInert, Typ.isStructKind]
  refine ⟨?_, rfl, ?_, ?_⟩
  · intro hkind
    have hiff := isInert_iff tag t
    by_cases h : isInert tag t = true
    · obtain ⟨h1, h2, h3, _⟩ := hiff.mp h
      simp [execField, h, h1, h2, h3]
    · have hrhs : ¬(tag.default = "" ∧ tag.env = "" ∧ tag.flag = "") := by
        intro hand
        exact h (hiff.mpr ⟨hand.1, hand.2.1, hand.2.2, hkind⟩)
      simp only [Bool.not_eq_true] at h
      simp only [execField, h, Bool.false_eq_true, if_false, hrhs, iff_false]
      cases t <;> simp [regOrDirect] <;> split <;> simp <;> split <;> simp
  · simp [execField, htime tag]
  · intro kname ts n hk hauto hreg hn
    have hts : ts ≠ "" := by
      intro hts
      subst hts
      rw [show goParseInt "" 64 = none from rfl] at hn
      simp at hn
    simp [rconfigParse, execFields, execField, htime, effectiveValue, varDefault,
      envDefault, hk, hauto, hreg, resolveFields, resolveField, timeAfterFunc,
      hts, hn]

/-- C5 amended witness: a vardefault-only int64 field is skipped, the same
field with a default attribute added is not, and a vardefault-only time.Time
field is never skipped and resolves to the registry-supplied epoch value. -/
theorem c5_inert_rule_amended_witness :
    execField (ctxOf (fun _ => none) (mapOne "k" "42")) "F" { vardefault := "k" } (.int 64)
      = .ok .skipped
    ∧ ¬ (execField (ctxOf (fun _ => none) (mapOne "k" "42")) "F"
        { vardefault := "k", default := "23" } (.int 64) = .ok .skipped)
    ∧ execField (ctxOf (fun _ => none) (mapOne "k" "1700000000")) "F"
        { vardefault := "k" } .time ≠ .ok .skipped
    ∧ rconfigParse (ctxOf (fun _ => none) (mapOne "k" "1700000000")) (fun _ => none)
        (.cons "F" { vardefault := "k" } .time .nil) (.cons (.time .zero) .nil)
        = .ok (.cons (.time (.unix 1700000000)) .nil) := by
  have ht := c5_inert_rule_amended (ctxOf (fun _ => none) (mapOne "k" "1700000000")) "F"
    { vardefault := "k" } .time (.time .zero) (fun _ => none)
  refine ⟨?_, ?_, ht.2.2.1, ht.2.2.2 "k" "1700000000" 1700000000 (by decide) rfl rfl rfl⟩
  · exact ((c5_inert_rule_amended (ctxOf (fun _ => none) (mapOne "k" "42")) "F"
      { vardefault := "k" } (.int 64) (.int 0) (fun _ => none)).1 rfl).mpr
      ⟨rfl, rfl, rfl⟩
  · intro h
    have := ((c5_inert_rule_amended (ctxOf (fun _ => none) (mapOne "k" "42")) "F"
      { vardefault := "k", default := "23" } (.int 64) (.int 0) (fun _ => none)).1 rfl).mp h
    simp at this

/-- C2 counterexample: in the two-phase direct field write
(applyEnvAndDefaults calling setFieldValue), an empty effective textual
value for an int64 field is a coercion error, not a silent zero: a field
carrying only an env tag, with that variable unset, fails. -/
theorem c2_counterexample :
    applyFields (ctxOf (fun _ => none) (fun _ => none)) []
      (.cons "Port" { env := "PORT" } (.int 64) .nil) (.cons (.int 0) .nil)
      = .error ("setting field Port: " ++ strconvErr "ParseInt" "")
    ∧ applyFields (ctxOf (fun _ => none) (fun _ => none)) []
      (.cons "Port" { env := "PORT" } (.int 64) .nil) (.cons (.int 0) .nil)
      ≠ .ok (.cons (.int 0) .nil, []) := by
  refine ⟨rfl, ?_⟩
  intro h
  rw [show applyFields (ctxOf (fun _ => none) (fun _ => none)) []
      (.cons "Port" { env := "PORT" } (.int 64) .nil) (.cons (.int 0) .nil)
      = .error ("setting field Port: " ++ strconvErr "ParseInt" "") from rfl] at h
  simp at h

/-- C2 amended: the empty-tolerance policy holds in the single-pass
traversal's coercions — an empty textual value yields zero without error and
a malformed non-empty value is a coercion error, for int, uint, float and
duration fields — but not in the two-phase direct field write: there
setFieldValue propagates the parse failure even for the empty value. -/
theorem c2_empty_tolerance_amended (bits : Nat) (is32 : Bool) (old : Value)
    (ctx : Ctx) (pf pd : String → Option Int) (value : String) :
    (execIntValue "" bits = .ok 0)
    ∧ (execUintValue "" bits = .ok 0)
    ∧ (pf "" = none → execFloatValue pf "" = .ok 0)
    ∧ (pd "" = none → execDurationValue pd "" = .ok 0)
    ∧ (value ≠ "" → parseIntForType value bits = none →
        (execIntValue value bits).isOk = false)
    ∧ (value ≠ "" → parseUintForType value bits = none →
        (execUintValue value bits).isOk = false)
    ∧ (value ≠ "" → pf value = none → (execFloatValue pf value).isOk = false)
    ∧ (value ≠ "" → pd value = none → (execDurationValue pd value).isOk = false)
    ∧ ((setFieldValue ctx (.int bits) "" old).isOk = false)
    ∧ ((setFieldValue ctx (.uint bits) "" old).isOk = false)
    ∧ (ctx.parseFloat "" = none → (setFieldValue ctx (.float is32) "" old).isOk = false)
    ∧ (ctx.parseDuration "" = none → (setFieldValue ctx .duration "" old).isOk = false) := by
  refine ⟨rfl, rfl, ?_, ?_, ?_, ?_, ?_, ?_, ?_, ?_, ?_, ?_⟩
  · intro h; simp [execFloatValue, h]
  · intro h; simp [execDurationValue, h]
  · intro hv hp; simp [execIntValue, hp, hv, Except.isOk, Except.toBool]
  · intro hv hp; simp [execUintValue, hp, hv, Except.isOk, Except.toBool]
  · intro hv hp; simp [execFloatValue, hp, hv, Except.isOk, Except.toBool]
  · intro hv hp; simp [execDurationValue, hp, hv, Except.isOk, Except.toBool]
  · simp [setFieldValue, show parseIntForType "" bits = none from rfl, Except.isOk, Except.toBool]
  · simp [setFieldValue, show parseUintForType "" bits = none from rfl, Except.isOk, Except.toBool]
  · intro h; simp [setFieldValue, h, Except.isOk, Except.toBool]
  · intro h; simp [setFieldValue, h, Except.isOk, Except.toBool]

/-- C2 amended witness: concrete instances of the tolerant single-pass
coercions, a malformed non-empty failure, and the intolerant two-phase
write. -/
theorem c2_empty_tolerance_amended_witness :
    execIntValue "" 8 = .ok 0
    ∧ execDurationValue (fun _ => none) "" = .ok 0
    ∧ (execIntValue "xy" 8).isOk = false
    ∧ (setFieldValue (ctxOf (fun _ => none) (fun _ => none)) (.int 8) "" (.int 0)).isOk = false
    ∧ (setFieldValue (ctxOf (fun _ => none) (fun _ => none)) .duration "" (.duration 0)).isOk = false := by
  have h := c2_empty_tolerance_amended 8 false (.int 0)
    (ctxOf (fun _ => none) (fun _ => none)) (fun _ => none) (fun _ => none) "xy"
  have h2 := c2_empty_tolerance_amended 8 false (.duration 0)
    (ctxOf (fun _ => none) (fun _ => none)) (fun _ => none) (fun _ => none) "xy"
  exact ⟨h.1, h.2.2.2.1 rfl, h.2.2.2.2.1 (by decide) rfl, h.2.2.2.2.2.2.2.2.1,
    h2.2.2.2.2.2.2.2.2.2.2.2 rfl⟩

/-- C10: for an int-slice field an empty effective textual value makes
single-pass resolution fail with a coercion error (the empty string splits
into one empty element whose base-10 parse fails), while under the same
conditions a string-slice field yields the empty sequence and a scalar int
field yields zero, both without error. -/
theorem c10_int_slice_empty (ctx : Ctx) (fieldName : String) (tag : Tag)
    (supplied : String → Option Value) (old : Value) (bits : Nat)
    (hproc : (tag.default == "" && tag.env == "" && tag.flag == "") = false)
    (hval : effectiveValue ctx fieldName tag = "")
    (hsup : supplied ((goSplit tag.flag ",").headD "") = none) :
    (rconfigParse ctx supplied (.cons fieldName tag .sliceInt .nil) (.cons old .nil)
      = .error ("parsing int: " ++ strconvErr "ParseInt" ""))
    ∧ (rconfigParse ctx supplied (.cons fieldName tag .sliceStr .nil) (.cons old .nil)
      = .ok (.cons (.sliceStr []) .nil))
    ∧ (rconfigParse ctx supplied (.cons fieldName tag (.int bits) .nil) (.cons old .nil)
      = .ok (.cons (.int 0) .nil)) := by
  have hin : ∀ t : Typ, isInert tag t = false := by
    intro t; simp [isInert, hproc]
  rw [List.headD_eq_head?] at hsup
  refine ⟨?_, ?_, ?_⟩
  · simp [rconfigParse, execFields, execField, hin, hval,
      show parseIntSlice (goSplit "" ",") = .error ("parsing int: " ++ strconvErr "ParseInt" "") from rfl]
  · simp [rconfigParse, execFields, execField, hin, hval, resolveFields, resolveField, hsup]
  · by_cases hf : tag.flag = "" <;>
      simp [rconfigParse, execFields, execField, hin, hval, regOrDirect, hf,
        show execIntValue "" bits = .ok 0 from rfl, resolveFields, resolveField, hsup]

/-- C10 witness: a flag-only int-slice field errors on its empty default
while the string-slice and scalar-int counterparts succeed. -/
theorem c10_int_slice_empty_witness :
    rconfigParse (ctxOf (fun _ => none) (fun _ => none)) (fun _ => none)
      (.cons "L" { flag := "l" } .sliceInt .nil) (.cons (.sliceInt []) .nil)
      = .error ("parsing int: " ++ strconvErr "ParseInt" "")
    ∧ rconfigParse (ctxOf (fun _ => none) (fun _ => none)) (fun _ => none)
      (.cons "L" { flag := "l" } .sliceStr .nil) (.cons (.sliceStr []) .nil)
      = .ok (.cons (.sliceStr []) .nil)
    ∧ rconfigParse (ctxOf (fun _ => none) (fun _ => none)) (fun _ => none)
      (.cons "L" { flag := "l" } (.int 64) .nil) (.cons (.int 0) .nil)
      = .ok (.cons (.int 0) .nil) := by
  have h := c10_int_slice_empty (ctxOf (fun _ => none) (fun _ => none)) "L"
    { flag := "l" } (fun _ => none) (.sliceInt []) 64 (by decide) rfl rfl
  have h2 := c10_int_slice_empty (ctxOf (fun _ => none) (fun _ => none)) "L"
    { flag := "l" } (fun _ => none) (.sliceStr []) 64 (by decide) rfl rfl
  have h3 := c10_int_slice_empty (ctxOf (fun _ => none) (fun _ => none)) "L"
    { flag := "l" } (fun _ => none) (.int 0) 64 (by decide) rfl rfl
  exact ⟨h.1, h2.2.1, h3.2.2⟩

/-- C7: a string-slice field's effective textual value is split literally on
the configured delimiter (default comma) with no per-element trimming —
"a, b ,c" yields ["a", " b ", "c"] — and an empty effective value yields the
empty sequence rather than a one-element sequence holding "". -/
theorem c7_string_slice_split (ctx : Ctx) (fieldName : String) (tag : Tag)
    (supplied : String → Option Value) (old : Value)
    (hproc : (tag.default == "" && tag.env == "" && tag.flag == "") = false)
    (hsup : supplied ((goSplit tag.flag ",").headD "") = none) :
    (rconfigParse ctx supplied (.cons fieldName tag .sliceStr .nil) (.cons old .nil)
      = .ok (.cons (.sliceStr
          (if effectiveValue ctx fieldName tag ≠ ""
           then goSplit (effectiveValue ctx fieldName tag)
             (if tag.delimiter.data.isEmpty then "," else tag.delimiter)
           else [])) .nil))
    ∧ goSplit "a, b ,c" "," = ["a", " b ", "c"]
    ∧ (effectiveValue ctx fieldName tag = "" →
        rconfigParse ctx supplied (.cons fieldName tag .sliceStr .nil) (.cons old .nil)
          = .ok (.cons (.sliceStr []) .nil)) := by
  have hin : isInert tag .sliceStr = false := by simp [isInert, hproc]
  rw [List.headD_eq_head?] at hsup
  refine ⟨?_, rfl, ?_⟩
  · simp [rconfigParse, execFields, execField, hin, resolveFields, resolveField, hsup]
  · intro hval
    simp [rconfigParse, execFields, execField, hin, hval, resolveFields, resolveField, hsup]

/-- C7 witness: the default-comma split retains whitespace, and an empty
effective value gives the empty sequence. -/
theorem c7_string_slice_split_witness :
    rconfigParse (ctxOf (fun _ => none) (fun _ => none)) (fun _ => none)
      (.cons "L" { default := "a, b ,c", flag := "l" } .sliceStr .nil)
      (.cons (.sliceStr []) .nil)
      = .ok (.cons (.sliceStr ["a", " b ", "c"]) .nil)
    ∧ rconfigParse (ctxOf (fun _ => none) (fun _ => none)) (fun _ => none)
      (.cons "L" { flag := "l" } .sliceStr .nil) (.cons (.sliceStr []) .nil)
      = .ok (.cons (.sliceStr []) .nil) := by
  have h := c7_string_slice_split (ctxOf (fun _ => none) (fun _ => none)) "L"
    { default := "a, b ,c", flag := "l" } (fun _ => none) (.sliceStr []) (by decide) rfl
  have h2 := c7_string_slice_split (ctxOf (fun _ => none) (fun _ => none)) "L"
    { flag := "l" } (fun _ => none) (.sliceStr []) (by decide) rfl
  refine ⟨?_, h2.2.2 rfl⟩
  have h1 := h.1
  rw [show effectiveValue (ctxOf (fun _ => none) (fun _ => none)) "L"
      { default := "a, b ,c", flag := "l" } = "a, b ,c" from rfl] at h1
  simpa using h1

/-- C1: four-tier precedence in single-pass resolution.  For a field whose
flag, environment variable, registry key and static default are all
populated with pairwise distinct values: the resolved value is the
flag-supplied value; with no flag supplied it is the environment value; with
the environment variable unset it is the registry value under the field's
vardefault key; with no matching registry key it is the static default. -/
theorem c1_four_tier_precedence
    (fname ename kname fieldName d vk ve v : String)
    (hf : fname ≠ "") (he : ename ≠ "") (hk : kname ≠ "") (hd : d ≠ "")
    (_h1 : v ≠ ve) (_h2 : ve ≠ vk) (_h3 : vk ≠ d) (_h4 : v ≠ vk) (_h5 : v ≠ d)
    (_h6 : ve ≠ d) :
    (∀ (ctx : Ctx) (supplied : String → Option Value),
        ctx.environ ename = some ve → ctx.registry kname = some vk →
        supplied ((goSplit fname ",").headD "") = some (.str v) →
        rconfigParse ctx supplied
          (.cons fieldName { default := d, vardefault := kname, env := ename, flag := fname } .str .nil)
          (.cons (.str "") .nil)
          = .ok (.cons (.str v) .nil))
    ∧ (∀ ctx : Ctx,
        ctx.environ ename = some ve → ctx.registry kname = some vk →
        rconfigParse ctx (fun _ => none)
          (.cons fieldName { default := d, vardefault := kname, env := ename, flag := fname } .str .nil)
          (.cons (.str "") .nil)
          = .ok (.cons (.str ve) .nil))
    ∧ (∀ ctx : Ctx,
        ctx.environ ename = none → ctx.registry kname = some vk →
        rconfigParse ctx (fun _ => none)
          (.cons fieldName { default := d, vardefault := kname, env := ename, flag := fname } .str .nil)
          (.cons (.str "") .nil)
          = .ok (.cons (.str vk) .nil))
    ∧ (∀ ctx : Ctx,
        ctx.environ ename = none → ctx.registry kname = none →
        rconfigParse ctx (fun _ => none)
          (.cons fieldName { default := d, vardefault := kname, env := ename, flag := fname } .str .nil)
          (.cons (.str "") .nil)
          = .ok (.cons (.str d) .nil))
    ∧ (∀ (di vki vei iv : Int),
        parseIntForType d 64 = some di → parseIntForType vk 64 = some vki →
        parseIntForType ve 64 = some vei →
        (∀ (ctx : Ctx) (supplied : String → Option Value),
            ctx.environ ename = some ve → ctx.registry kname = some vk →
            supplied ((goSplit fname ",").headD "") = some (.int iv) →
            rconfigParse ctx supplied
              (.cons fieldName { default := d, vardefault := kname, env := ename, flag := fname } (.int 64) .nil)
              (.cons (.int 0) .nil)
              = .ok (.cons (.int iv) .nil))
        ∧ (∀ ctx : Ctx,
            ctx.environ ename = some ve → ctx.registry kname = some vk →
            rconfigParse ctx (fun _ => none)
              (.cons fieldName { default := d, vardefault := kname, env := ename, flag := fname } (.int 64) .nil)
              (.cons (.int 0) .nil)
              = .ok (.cons (.int vei) .nil))
        ∧ (∀ ctx : Ctx,
            ctx.environ ename = none → ctx.registry kname = some vk →
            rconfigParse ctx (fun _ => none)
              (.cons fieldName { default := d, vardefault := kname, env := ename, flag := fname } (.int 64) .nil)
              (.cons (.int 0) .nil)
              = .ok (.cons (.int vki) .nil))
        ∧ (∀ ctx : Ctx,
            ctx.environ ename = none → ctx.registry kname = none →
            rconfigParse ctx (fun _ => none)
              (.cons fieldName { default := d, vardefault := kname, env := ename, flag := fname } (.int 64) .nil)
              (.cons (.int 0) .nil)
              = .ok (.cons (.int di) .nil))) := by
  have hinert : ∀ t : Typ, t.isStructB = false →
      isInert { default := d, vardefault := kname, env := ename, flag := fname } t = false := by
    intro t _
    simp [isInert, hd]
  refine ⟨?_, ?_, ?_, ?_, ?_⟩
  · intro ctx supplied henv hreg hsup
    rw [List.headD_eq_head?] at hsup
    simp [rconfigParse, execFields, execField, hinert .str rfl, effectiveValue, varDefault,
      envDefault, hk, he, hreg, henv, regOrDirect, hf, resolveFields, resolveField, hsup]
  · intro ctx henv hreg
    simp [rconfigParse, execFields, execField, hinert .str rfl, effectiveValue, varDefault,
      envDefault, hk, he, hreg, henv, regOrDirect, hf, resolveFields, resolveField]
  · intro ctx henv hreg
    simp [rconfigParse, execFields, execField, hinert .str rfl, effectiveValue, varDefault,
      envDefault, hk, he, hreg, henv, regOrDirect, hf, resolveFields, resolveField]
  · intro ctx henv hreg
    simp [rconfigParse, execFields, execField, hinert .str rfl, effectiveValue, varDefault,
      envDefault, hk, he, hreg, henv, regOrDirect, hf, resolveFields, resolveField]
  · intro di vki vei iv hdi hvki hvei
    refine ⟨?_, ?_, ?_, ?_⟩
    · intro ctx supplied henv hreg hsup
      rw [List.headD_eq_head?] at hsup
      simp [rconfigParse, execFields, execField, hinert (.int 64) rfl, effectiveValue,
        varDefault, envDefault, hk, he, hreg, henv, regOrDirect, hf, execIntValue,
        hvei, resolveFields, resolveField, hsup]
    · intro ctx henv hreg
      simp [rconfigParse, execFields, execField, hinert (.int 64) rfl, effectiveValue,
        varDefault, envDefault, hk, he, hreg, henv, regOrDirect, hf, execIntValue,
        hvei, resolveFields, resolveField]
    · intro ctx henv hreg
      simp [rconfigParse, execFields, execField, hinert (.int 64) rfl, effectiveValue,
        varDefault, envDefault, hk, he, hreg, henv, regOrDirect, hf, execIntValue,
        hvki, resolveFields, resolveField]
    · intro ctx henv hreg
      simp [rconfigParse, execFields, execField, hinert (.int 64) rfl, effectiveValue,
        varDefault, envDefault, hk, he, hreg, henv, regOrDirect, hf, execIntValue,
        hdi, resolveFields, resolveField]

/-- C1 witness: the four tiers at concrete values flagv, envv, regv, defv. -/
theorem c1_four_tier_precedence_witness :
    rconfigParse (ctxOf (mapOne "E" "envv") (mapOne "K" "regv"))
      (supOne "listen" (.str "flagv"))
      (.cons "F" { default := "defv", vardefault := "K", env := "E", flag := "listen,l" } .str .nil)
      (.cons (.str "") .nil) = .ok (.cons (.str "flagv") .nil)
    ∧ rconfigParse (ctxOf (mapOne "E" "envv") (mapOne "K" "regv")) (fun _ => none)
      (.cons "F" { default := "defv", vardefault := "K", env := "E", flag := "listen,l" } .str .nil)
      (.cons (.str "") .nil) = .ok (.cons (.str "envv") .nil)
    ∧ rconfigParse (ctxOf (fun _ => none) (mapOne "K" "regv")) (fun _ => none)
      (.cons "F" { default := "defv", vardefault := "K", env := "E", flag := "listen,l" } .str .nil)
      (.cons (.str "") .nil) = .ok (.cons (.str "regv") .nil)
    ∧ rconfigParse (ctxOf (fun _ => none) (fun _ => none)) (fun _ => none)
      (.cons "F" { default := "defv", vardefault := "K", env := "E", flag := "listen,l" } .str .nil)
      (.cons (.str "") .nil) = .ok (.cons (.str "defv") .nil)
    ∧ rconfigParse (ctxOf (mapOne "E" "3") (mapOne "K" "2"))
      (supOne "listen" (.int 4))
      (.cons "F" { default := "1", vardefault := "K", env := "E", flag := "listen,l" } (.int 64) .nil)
      (.cons (.int 0) .nil) = .ok (.cons (.int 4) .nil)
    ∧ rconfigParse (ctxOf (mapOne "E" "3") (mapOne "K" "2")) (fun _ => none)
      (.cons "F" { default := "1", vardefault := "K", env := "E", flag := "listen,l" } (.int 64) .nil)
      (.cons (.int 0) .nil) = .ok (.cons (.int 3) .nil)
    ∧ rconfigParse (ctxOf (fun _ => none) (mapOne "K" "2")) (fun _ => none)
      (.cons "F" { default := "1", vardefault := "K", env := "E", flag := "listen,l" } (.int 64) .nil)
      (.cons (.int 0) .nil) = .ok (.cons (.int 2) .nil)
    ∧ rconfigParse (ctxOf (fun _ => none) (fun _ => none)) (fun _ => none)
      (.cons "F" { default := "1", vardefault := "K", env := "E", flag := "listen,l" } (.int 64) .nil)
      (.cons (.int 0) .nil) = .ok (.cons (.int 1) .nil) := by
  have h := c1_four_tier_precedence "listen,l" "E" "K" "F" "defv" "regv" "envv" "flagv"
    (by decide) (by decide) (by decide) (by decide) (by decide) (by decide)
    (by decide) (by decide) (by decide) (by decide)
  have h2 := c1_four_tier_precedence "listen,l" "E" "K" "F" "1" "2" "3" "9"
    (by decide) (by decide) (by decide) (by decide) (by decide) (by decide)
    (by decide) (by decide) (by decide) (by decide)
  have hint := h2.2.2.2.2 1 2 3 4 rfl rfl rfl
  exact ⟨h.1 _ _ rfl rfl rfl, h.2.1 _ rfl rfl, h.2.2.1 _ rfl rfl, h.2.2.2.1 _ rfl rfl,
    hint.1 _ _ rfl rfl rfl, hint.2.1 _ rfl rfl, hint.2.2.1 _ rfl rfl, hint.2.2.2 _ rfl rfl⟩

/-- The ordered format walk fails when every format fails. -/
theorem firstTimeParse_eq_none (tp : String → String → Option Int)
    (formats : List String) (v : String)
    (h : ∀ f ∈ formats, tp f v = none) : firstTimeParse tp formats v = none := by
  induction formats with
  | nil => rfl
  | cons f rest ih =>
    have hf := h f (by simp)
    simp only [firstTimeParse, hf]
    exact ih (fun g hg => h g (by simp [hg]))

/-- The ordered format walk returns the first success: if every earlier
format fails and the format at position i succeeds, its result is taken. -/
theorem firstTimeParse_first (tp : String → String → Option Int)
    (formats : List String) (v : String) (i : Nat) (f : String) (t : Int)
    (hi : formats[i]? = some f) (ht : tp f v = some t)
    (hbefore : ∀ g ∈ formats.take i, tp g v = none) :
    firstTimeParse tp formats v = some t := by
  induction formats generalizing i with
  | nil => simp at hi
  | cons g rest ih =>
    cases i with
    | zero =>
      simp at hi
      subst hi
      simp [firstTimeParse, ht]
    | succ j =>
      have hg : tp g v = none := hbefore g (by simp [List.take_succ_cons])
      simp only [firstTimeParse, hg]
      exact ih j (by simpa using hi) (fun x hx => hbefore x (by simp [List.take_succ_cons, hx]))

/-- C3 counterexample: in the two-phase direct field write, an empty
textual value for a timestamp field does not succeed trivially — it fails
with the coercion error — contrary to the claim's "in both paths" clause. -/
theorem c3_counterexample :
    setFieldValue (ctxOf (fun _ => none) (fun _ => none)) .time "" (.time .zero)
      = .error "unable to parse time: "
    ∧ setFieldValue (ctxOf (fun _ => none) (fun _ => none)) .time "" (.time .zero)
      ≠ .ok (.time .zero) := by
  refine ⟨rfl, ?_⟩
  intro h
  rw [show setFieldValue (ctxOf (fun _ => none) (fun _ => none)) .time "" (.time .zero)
      = .error "unable to parse time: " from rfl] at h
  simp at h

/-- C3 amended: in both the deferred single-pass action and the two-phase
direct write, a timestamp's text is first tried as a base-10 Unix
epoch-seconds integer, then against the format list in order taking the
first success, and a non-empty value matching nothing fails with an error
naming the value; an empty value succeeds trivially (keeping the field's
prior value) only in the deferred path, while the two-phase direct write
fails on it. -/
theorem c3_timestamp_amended (ctx : Ctx) (old : Value) :
    (timeAfterFunc ctx "" old = .ok old)
    ∧ ((∀ g ∈ ctx.timeFormats, ctx.timeParse g "" = none) →
        setFieldValue ctx .time "" old = .error "unable to parse time: ")
    ∧ (∀ v ts, goParseInt v 64 = some ts →
        timeAfterFunc ctx v old = .ok (.time (.unix ts))
        ∧ setFieldValue ctx .time v old = .ok (.time (.unix ts)))
    ∧ (∀ v t i f, v ≠ "" → goParseInt v 64 = none →
        ctx.timeFormats[i]? = some f → ctx.timeParse f v = some t →
        (∀ g ∈ ctx.timeFormats.take i, ctx.timeParse g v = none) →
        timeAfterFunc ctx v old = .ok (.time (.parsed t))
        ∧ setFieldValue ctx .time v old = .ok (.time (.parsed t)))
    ∧ (∀ v, v ≠ "" → goParseInt v 64 = none →
        (∀ g ∈ ctx.timeFormats, ctx.timeParse g v = none) →
        timeAfterFunc ctx v old
          = .error ("value \"" ++ v ++ "\" did not match expected time formats")
        ∧ setFieldValue ctx .time v old = .error ("unable to parse time: " ++ v)) := by
  refine ⟨rfl, ?_, ?_, ?_, ?_⟩
  · intro h
    have hw := firstTimeParse_eq_none ctx.timeParse ctx.timeFormats "" h
    simp [setFieldValue, show goParseInt "" 64 = none from rfl, hw]
  · intro v ts h
    by_cases hv : v = ""
    · subst hv
      rw [show goParseInt "" 64 = none from rfl] at h
      simp at h
    · exact ⟨by simp [timeAfterFunc, hv, h], by simp [setFieldValue, h]⟩
  · intro v t i f hv hint hi ht hbefore
    have hw := firstTimeParse_first ctx.timeParse ctx.timeFormats v i f t hi ht hbefore
    exact ⟨by simp [timeAfterFunc, hv, hint, hw], by simp [setFieldValue, hint, hw]⟩
  · intro v hv hint hall
    have hw := firstTimeParse_eq_none ctx.timeParse ctx.timeFormats v hall
    exact ⟨by simp [timeAfterFunc, hv, hint, hw], by simp [setFieldValue, hint, hw]⟩

/-- C3 amended witness: the epoch path on "1700000000", the ordered-format
path on the simplified ISO value (format position 11, all earlier formats
failing), the trivial empty success in the deferred path, the empty failure
in the direct write, and the no-match error naming the value. -/
theorem c3_timestamp_amended_witness :
    timeAfterFunc ctxTime "" (.time .zero) = .ok (.time .zero)
    ∧ setFieldValue ctxTime .time "" (.time .zero) = .error "unable to parse time: "
    ∧ timeAfterFunc ctxTime "1700000000" (.time .zero) = .ok (.time (.unix 1700000000))
    ∧ timeAfterFunc ctxTime "2023-01-02 15:04:05" (.time .zero)
        = .ok (.time (.parsed 1672671845))
    ∧ setFieldValue ctxTime .time "2023-01-02 15:04:05" (.time .zero)
        = .ok (.time (.parsed 1672671845))
    ∧ timeAfterFunc ctxTime "xyz" (.time .zero)
        = .error "value \"xyz\" did not match expected time formats" := by
  have h := c3_timestamp_amended ctxTime (.time .zero)
  have hfmt := h.2.2.2.1 "2023-01-02 15:04:05" 1672671845 11 "2006-01-02 15:04:05"
    (by decide) rfl rfl (by decide) (by decide)
  exact ⟨h.1, h.2.1 (by decide), (h.2.2.1 "1700000000" 1700000000 rfl).1,
    hfmt.1, hfmt.2, (h.2.2.2.2 "xyz" (by decide) rfl (by decide)).1⟩

/-- A dot-joined key is never empty. -/
theorem append_dot_ne_empty (a b : String) : a ++ "." ++ b ≠ "" := by
  intro h
  have hl := congrArg String.length h
  simp [String.length_append] at hl
  exact absurd hl.1.2 (by decide)

/-- Splitting off the first segment of a dot-join. -/
theorem dotJoin_append (a b : String) (l : List String) :
    dotJoin ((a ++ "." ++ b) :: l) = a ++ "." ++ dotJoin (b :: l) := by
  cases l with
  | nil => simp [dotJoin]
  | cons c cl => simp [dotJoin, String.append_assoc]

mutual
/-- Flattening one value under a non-empty key emits exactly its dot-joined
(lower-cased as requested) leaf paths. -/
theorem flattenVal_spec : ∀ (v : YVal) (key : String) (opts : YAMLOptions),
    key ≠ "" →
    flattenYAMLVal key v opts
      = (specPathsVal v).map
          (fun p => (dotJoin (key :: p.1.map (lowKey opts.keyToLower)), p.2))
  | .scalar s, key, opts, _ => by
    simp [flattenYAMLVal, specPathsVal, dotJoin]
  | .smap es, key, opts, hk => by
    simpa [flattenYAMLVal, specPathsVal] using flattenMap_spec es key opts hk
  | .imap es, key, opts, hk => by
    simpa [flattenYAMLVal, specPathsVal] using flattenMapI_spec es key opts hk

/-- Flattening a string-keyed mapping under a non-empty prefix. -/
theorem flattenMap_spec : ∀ (es : YEntries) (pfx : String) (opts : YAMLOptions),
    pfx ≠ "" →
    flattenYAMLMap pfx es opts
      = (specPathsMap es).map
          (fun p => (dotJoin (pfx :: p.1.map (lowKey opts.keyToLower)), p.2))
  | .nil, pfx, opts, _ => by simp [flattenYAMLMap, specPathsMap]
  | .cons k v rest, pfx, opts, hp => by
    have h1 := flattenVal_spec v (pfx ++ "." ++ lowKey opts.keyToLower k) opts
      (append_dot_ne_empty _ _)
    have h2 := flattenMap_spec rest pfx opts hp
    simp only [lowKey] at h1 h2 ⊢
    simp [flattenYAMLMap, specPathsMap, hp, h1, h2, List.map_append,
      List.map_map, Function.comp, dotJoin_append, dotJoin, lowKey]

/-- Flattening a scalar-keyed mapping under a non-empty prefix. -/
theorem flattenMapI_spec : ∀ (es : YIEntries) (pfx : String) (opts : YAMLOptions),
    pfx ≠ "" →
    flattenYAMLMapI pfx es opts
      = (specPathsIMap es).map
          (fun p => (dotJoin (pfx :: p.1.map (lowKey opts.keyToLower)), p.2))
  | .nil, pfx, opts, _ => by simp [flattenYAMLMapI, specPathsIMap]
  | .cons k v rest, pfx, opts, hp => by
    have h1 := flattenVal_spec v (pfx ++ "." ++ lowKey opts.keyToLower (Scalar.sprintf k)) opts
      (append_dot_ne_empty _ _)
    have h2 := flattenMapI_spec rest pfx opts hp
    simp only [lowKey] at h1 h2 ⊢
    simp [flattenYAMLMapI, specPathsIMap, hp, h1, h2, List.map_append,
      List.map_map, Function.comp, dotJoin_append, dotJoin, lowKey]
end

/-- Root-level agreement of the flattener with the spec-side dot-join
description, under non-empty (post-lowering) top-level keys. -/
theorem flattenMap_root_spec : ∀ (es : YEntries) (opts : YAMLOptions),
    rootKeysOK opts.keyToLower es = true →
    flattenYAMLMap "" es opts = specFlatten opts.keyToLower es
  | .nil, _, _ => rfl
  | .cons k v rest, opts, hroot => by
    simp only [rootKeysOK, Bool.and_eq_true, decide_eq_true_eq] at hroot
    obtain ⟨hk, hrest⟩ := hroot
    have h1 := flattenVal_spec v (lowKey opts.keyToLower k) opts hk
    have h2 := flattenMap_root_spec rest opts hrest
    simp only [lowKey] at h1 h2 ⊢
    simp [flattenYAMLMap, specFlatten, specPathsMap, h1, h2,
      List.map_append, List.map_map, Function.comp, lowKey]

/-- C8 counterexample: flattening is not literally the dot-join of leaf
paths for every document: an empty top-level key contributes no path
segment, so the document mapping "" to a nested mapping with key "a"
flattens to key "a" where the dot-join description demands ".a". -/
theorem c8_counterexample :
    flattenYAMLMap "" (.cons "" (.smap (.cons "a" (.scalar (.str "x")) .nil)) .nil)
      { keyToLower := false } = [("a", "x")]
    ∧ specFlatten false (.cons "" (.smap (.cons "a" (.scalar (.str "x")) .nil)) .nil)
      = [(".a", "x")]
    ∧ ("a" : String) ≠ ".a" := by
  exact ⟨rfl, rfl, by decide⟩

/-- C8 amended: for every document whose top-level keys are non-empty after
the optional lower-casing, VarDefaultsFromYAML flattens the nested mapping
(to any depth, scalar-keyed mappings included) into exactly the map sending
each dot-joined leaf path — every segment lower-cased when the option is
enabled — to the stringified leaf scalar. -/
theorem c8_flattening_amended (es : YEntries) (opts : List YAMLOption)
    (hroot : rootKeysOK (applyOptions opts).keyToLower es = true) :
    VarDefaultsFromYAML (.mapRoot es) opts
      = .ok (specFlatten (applyOptions opts).keyToLower es) := by
  simp only [VarDefaultsFromYAML, yamlUnmarshalMap]
  rw [flattenMap_root_spec es (applyOptions opts) hroot]

/-- C8 amended witness: the P6 document flattens to config.rabbitmq.port
with value "1234", and the mixed-case document with a scalar-keyed inner
mapping lower-cases every segment when the option is enabled. -/
theorem c8_flattening_amended_witness :
    VarDefaultsFromYAML (.mapRoot docP6) [] = .ok (specFlatten false docP6)
    ∧ specFlatten false docP6 = [("config.rabbitmq.port", "1234")]
    ∧ VarDefaultsFromYAML (.mapRoot docLC) [WithKeyToLower]
        = .ok (specFlatten true docLC)
    ∧ specFlatten true docLC = [("config.rabbitmq.7", "Test-Host")] := by
  exact ⟨c8_flattening_amended docP6 [] (by decide), rfl,
    c8_flattening_amended docLC [WithKeyToLower] (by decide), rfl⟩

end RConfig
